import Mathlib

/-!
Shallow embedding of the fx-logr adapter: the `LogrLogger` fxevent adapter
from logr.go, the minimal unexported `logger` variant, and the factory
`WithLogr`.  Events are modelled as a closed inductive type; each call the
adapter makes on the logr sink is recorded as a `SinkCall` value, so
`LogEvent` becomes a pure function from an event to the list of sink calls
it performs, in order.
-/

/-- A Go `error` value is modelled by its message string; `Option GoError`
models a possibly-nil `error`. -/
abbrev GoError := String

/-- A value in a structured-log key/value list: the adapter only ever passes
strings and the literal boolean `true` (for the `private` field). -/
inductive FieldValue where
  | str (s : String)
  | bool (b : Bool)
  deriving DecidableEq, Repr

/-- Whether a field value is the literal `true`. -/
def FieldValue.isTrue : FieldValue → Bool
  | .bool true => true
  | _ => false

/-- One call on the logr sink: `V(level).Info(msg, kvs...)` or
`V(level).Error(err, msg, kvs...)`.  The `err` argument of an error call is
`none` when the Go code passes a nil error. -/
inductive SinkCall where
  | info (level : Int) (msg : String) (fields : List (String × FieldValue))
  | error (level : Int) (err : Option GoError) (msg : String) (fields : List (String × FieldValue))
  deriving DecidableEq, Repr

/-- The verbosity level the call was made at. -/
def SinkCall.level : SinkCall → Int
  | .info lv _ _ => lv
  | .error lv _ _ _ => lv

/-- The message string of the call. -/
def SinkCall.msg : SinkCall → String
  | .info _ m _ => m
  | .error _ _ m _ => m

/-- The key/value field list of the call. -/
def SinkCall.fields : SinkCall → List (String × FieldValue)
  | .info _ _ fs => fs
  | .error _ _ _ fs => fs

/-- Whether the call is to the sink's error operation (the operation that
takes a failure cause argument). -/
def SinkCall.isError : SinkCall → Bool
  | .info _ _ _ => false
  | .error _ _ _ _ => true

/-- The closed set of fxevent lifecycle event variants handled by logr.go,
with exactly the fields the adapter reads.  `Runtime` is the duration in
nanoseconds (Go `time.Duration`); `Signal` stores the rendering
`e.Signal.String()` of the OS signal, which the adapter treats as opaque. -/
inductive Event where
  | OnStartExecuting (FunctionName CallerName : String)
  | OnStartExecuted (FunctionName CallerName : String) (Runtime : Nat) (Err : Option GoError)
  | OnStopExecuting (FunctionName CallerName : String)
  | OnStopExecuted (FunctionName CallerName : String) (Runtime : Nat) (Err : Option GoError)
  | Supplied (TypeName ModuleName : String) (Err : Option GoError)
  | Provided (ConstructorName ModuleName : String) (OutputTypeNames : List String)
      (Err : Option GoError) (Private : Bool)
  | Replaced (ModuleName : String) (OutputTypeNames : List String) (Err : Option GoError)
  | Decorated (DecoratorName ModuleName : String) (OutputTypeNames : List String)
      (Err : Option GoError)
  | Invoking (FunctionName ModuleName : String)
  | Invoked (FunctionName ModuleName Trace : String) (Err : Option GoError)
  | Stopping (Signal : String)
  | Stopped (Err : Option GoError)
  | RollingBack (StartErr : Option GoError)
  | RolledBack (Err : Option GoError)
  | Started (Err : Option GoError)
  | LoggerInitialized (ConstructorName : String) (Err : Option GoError)
  deriving DecidableEq, Repr

/-- The `LogrLogger` struct of logr.go.  The `*logr.Logger` sink is opaque to
this adapter, so it is modelled as an identifier. -/
structure LogrLogger where
  Logger : Nat
  logLevel : Int
  errorLevel : Int
  deriving DecidableEq, Repr

/-- `UseLogLevel` sets the log level for log events (pointer-receiver method,
modelled by state passing). -/
def LogrLogger.UseLogLevel (l : LogrLogger) (level : Int) : LogrLogger :=
  { l with logLevel := level }

/-- `UseErrorLevel` sets the log level for error events. -/
def LogrLogger.UseErrorLevel (l : LogrLogger) (level : Int) : LogrLogger :=
  { l with errorLevel := level }

/-- `logEvent`: `l.Logger.V(l.logLevel).Info(msg, keysAndValues...)`. -/
def LogrLogger.logEvent (l : LogrLogger) (msg : String)
    (keysAndValues : List (String × FieldValue)) : SinkCall :=
  .info l.logLevel msg keysAndValues

/-- `logError`: `l.Logger.V(l.errorLevel).Error(err, msg, keysAndValues...)`. -/
def LogrLogger.logError (l : LogrLogger) (err : Option GoError) (msg : String)
    (keysAndValues : List (String × FieldValue)) : SinkCall :=
  .error l.errorLevel err msg keysAndValues

/-- Models Go's `time.Duration.String()` fraction formatting `fmtFrac`:
strips trailing zeros of the low `prec` digits, prefixing a decimal point
when any remain, and returns the remaining integer part. -/
def fmtFracAux : Nat → Nat → String → Bool → String × Nat
  | 0, v, acc, pr => ((if pr then "." ++ acc else ""), v)
  | n + 1, v, acc, pr =>
      let digit := v % 10
      let keep := pr || digit != 0
      fmtFracAux n (v / 10) (if keep then (Nat.digitChar digit).toString ++ acc else acc) keep

/-- Models Go's `time.Duration.String()` for non-negative durations, given in
nanoseconds (external standard-library function the adapter calls as
`e.Runtime.String()`). -/
def durationString (u : Nat) : String :=
  if u = 0 then "0s"
  else if u < 1000000000 then
    let pu : Nat × String :=
      if u < 1000 then (0, "ns")
      else if u < 1000000 then (3, "µs")
      else (6, "ms")
    let fv := fmtFracAux pu.1 u "" false
    toString fv.2 ++ fv.1 ++ pu.2
  else
    let fv := fmtFracAux 9 u "" false
    let sPart := toString (fv.2 % 60) ++ fv.1 ++ "s"
    let rest := fv.2 / 60
    if rest = 0 then sPart
    else
      let mPart := toString (rest % 60) ++ "m" ++ sPart
      if rest / 60 = 0 then mPart
      else toString (rest / 60) ++ "h" ++ mPart

/-- Models Go's `strings.ToUpper` on the ASCII range (the adapter applies it
to the rendered signal name). -/
def stringsToUpper (s : String) : String :=
  ⟨s.data.map Char.toUpper⟩

/-- `LogEvent` from logr.go: the full dispatch from an event to the ordered
list of sink calls the adapter performs for it. -/
def LogrLogger.LogEvent (l : LogrLogger) (event : Event) : List SinkCall :=
  match event with
  | .OnStartExecuting fn cn =>
      [l.logEvent "OnStart hook executing" [("callee", .str fn), ("caller", .str cn)]]
  | .OnStartExecuted fn cn rt err =>
      match err with
      | some e => [l.logError (some e) "OnStart hook failed"
          [("callee", .str fn), ("caller", .str cn)]]
      | none => [l.logEvent "OnStart hook executed"
          [("callee", .str fn), ("caller", .str cn), ("runtime", .str (durationString rt))]]
  | .OnStopExecuting fn cn =>
      [l.logEvent "OnStop hook executing" [("callee", .str fn), ("caller", .str cn)]]
  | .OnStopExecuted fn cn rt err =>
      match err with
      | some e => [l.logError (some e) "OnStop hook failed"
          [("callee", .str fn), ("caller", .str cn)]]
      | none => [l.logEvent "OnStop hook executed"
          [("callee", .str fn), ("caller", .str cn), ("runtime", .str (durationString rt))]]
  | .Supplied tn mn err =>
      if mn.length != 0 then
        match err with
        | some e => [l.logError (some e) "error encountered while applying options"
            [("type", .str tn), ("module", .str mn)]]
        | none => [l.logEvent "supplied" [("type", .str tn), ("module", .str mn)]]
      else
        match err with
        | some e => [l.logError (some e) "error encountered while applying options"
            [("type", .str tn)]]
        | none => [l.logEvent "supplied" [("type", .str tn)]]
  | .Provided cn mn outs err priv =>
      if mn.length != 0 then
        (outs.map fun rtype =>
          if priv then
            l.logEvent "provided" [("constructor", .str cn), ("module", .str mn),
              ("type", .str rtype), ("private", .bool true)]
          else
            l.logEvent "provided" [("constructor", .str cn), ("module", .str mn),
              ("type", .str rtype)]) ++
        (match err with
         | some e => [l.logError (some e) "error encountered while applying options"
             [("module", .str mn)]]
         | none => [])
      else
        (outs.map fun rtype =>
          if priv then
            l.logEvent "provided" [("constructor", .str cn),
              ("type", .str rtype), ("private", .bool true)]
          else
            l.logEvent "provided" [("constructor", .str cn), ("type", .str rtype)]) ++
        (match err with
         | some e => [l.logError (some e) "error encountered while applying options" []]
         | none => [])
  | .Replaced mn outs err =>
      if mn.length != 0 then
        (outs.map fun rtype =>
          l.logEvent "replaced" [("module", .str mn), ("type", .str rtype)]) ++
        (match err with
         | some e => [l.logError (some e) "error encountered while replacing"
             [("module", .str mn)]]
         | none => [])
      else
        (outs.map fun rtype => l.logEvent "replaced" [("type", .str rtype)]) ++
        (match err with
         | some e => [l.logError (some e) "error encountered while replacing" []]
         | none => [])
  | .Decorated dn mn outs err =>
      if mn.length != 0 then
        (outs.map fun rtype =>
          l.logEvent "decorated" [("decorator", .str dn), ("module", .str mn),
            ("type", .str rtype)]) ++
        (match err with
         | some e => [l.logError (some e) "error encountered while applying options"
             [("module", .str mn)]]
         | none => [])
      else
        (outs.map fun rtype =>
          l.logEvent "decorated" [("decorator", .str dn), ("type", .str rtype)]) ++
        (match err with
         | some e => [l.logError (some e) "error encountered while applying options" []]
         | none => [])
  | .Invoking fn mn =>
      if mn.length != 0 then
        [l.logEvent "invoking" [("function", .str fn), ("module", .str mn)]]
      else
        [l.logEvent "invoking" [("function", .str fn)]]
  | .Invoked fn mn tr err =>
      if mn.length != 0 then
        match err with
        | some e => [l.logError (some e) "invoke failed"
            [("stack", .str tr), ("function", .str fn), ("module", .str mn)]]
        | none => []
      else
        match err with
        | some e => [l.logError (some e) "invoke failed"
            [("stack", .str tr), ("function", .str fn)]]
        | none => []
  | .Stopping sig =>
      [l.logEvent "received signal" [("signal", .str (stringsToUpper sig))]]
  | .Stopped err =>
      match err with
      | some e => [l.logError (some e) "stop failed" []]
      | none => []
  | .RollingBack startErr =>
      [l.logError startErr "start failed, rolling back" []]
  | .RolledBack err =>
      match err with
      | some e => [l.logError (some e) "rollback failed" []]
      | none => []
  | .Started err =>
      match err with
      | some e => [l.logError (some e) "start failed" []]
      | none => [l.logEvent "started" []]
  | .LoggerInitialized cn err =>
      match err with
      | some e => [l.logError (some e) "custom logger initialization failed" []]
      | none => [l.logEvent "initialized custom fxevent.Logger" [("function", .str cn)]]

/-- State-passing form of the pointer-receiver method `LogEvent`: the Go
method body writes no field of the receiver, so the embedding returns the
receiver unchanged alongside the emitted sink calls. -/
def LogrLogger.LogEventS (l : LogrLogger) (event : Event) : LogrLogger × List SinkCall :=
  (l, l.LogEvent event)

/-- `WithLogr` from logr.go: the returned closure builds
`&LogrLogger{Logger: l}`, whose unset int fields take the Go zero value. -/
def WithLogr (sink : Nat) : LogrLogger :=
  { Logger := sink, logLevel := 0, errorLevel := 0 }

/-- The minimal unexported `logger` variant of the adapter: it holds the
logr sink by value. -/
structure logger where
  Logger : Nat
  deriving DecidableEq, Repr

/-- `LogEvent` of the minimal `logger`: its switch handles only
`OnStartExecuting`, via a direct `l.Logger.Info(...)` call, which logs at
verbosity 0; every other variant falls through with no call. -/
def logger.LogEvent (_ : logger) (event : Event) : List SinkCall :=
  match event with
  | .OnStartExecuting fn cn =>
      [.info 0 "OnStart hook executing" [("callee", .str fn), ("caller", .str cn)]]
  | _ => []

/-- The number of sink calls each event variant actually produces, as a
function of the event's contents. -/
def eventCallCount : Event → Nat
  | .OnStartExecuting _ _ => 1
  | .OnStartExecuted _ _ _ _ => 1
  | .OnStopExecuting _ _ => 1
  | .OnStopExecuted _ _ _ _ => 1
  | .Supplied _ _ _ => 1
  | .Provided _ _ outs err _ => outs.length + (if err.isSome then 1 else 0)
  | .Replaced _ outs err => outs.length + (if err.isSome then 1 else 0)
  | .Decorated _ _ outs err => outs.length + (if err.isSome then 1 else 0)
  | .Invoking _ _ => 1
  | .Invoked _ _ _ err => if err.isSome then 1 else 0
  | .Stopping _ => 1
  | .Stopped err => if err.isSome then 1 else 0
  | .RollingBack _ => 1
  | .RolledBack err => if err.isSome then 1 else 0
  | .Started _ => 1
  | .LoggerInitialized _ _ => 1

/-- Whether a key occurs in a structured-log field list. -/
def hasKey (fs : List (String × FieldValue)) (k : String) : Bool :=
  fs.any fun kv => kv.1 == k

/-- A sink call's verbosity agrees with the logger's configuration: the
error level exactly on error-operation calls, the log level otherwise. -/
def levelOk (l : LogrLogger) (c : SinkCall) : Bool :=
  c.level == if c.isError then l.errorLevel else l.logLevel

@[simp]
theorem levelOk_logEvent (l : LogrLogger) (m : String) (fs : List (String × FieldValue)) :
    levelOk l (l.logEvent m fs) = true := by
  simp [levelOk, LogrLogger.logEvent, SinkCall.isError, SinkCall.level]

@[simp]
theorem levelOk_logError (l : LogrLogger) (err : Option GoError) (m : String)
    (fs : List (String × FieldValue)) :
    levelOk l (l.logError err m fs) = true := by
  simp [levelOk, LogrLogger.logError, SinkCall.isError, SinkCall.level]

/-- C1 counterexample: a successful function-invocation event results in
zero sink calls, not exactly one. -/
theorem invoked_success_zero_calls :
    ((WithLogr 0).LogEvent (Event.Invoked "f" "" "" none)).length ≠ 1 := by
  decide

/-- C1 (amended): every event is handled synchronously with a
variant-determined number of sink calls, `eventCallCount`: one for most
variants, `Err`-conditional for invoked/stopped/rolled-back, and the number
of output types plus an `Err`-conditional extra call for
provided/replaced/decorated. -/
theorem logEvent_call_count (l : LogrLogger) (e : Event) :
    (l.LogEvent e).length = eventCallCount e := by
  cases e <;>
    simp only [LogrLogger.LogEvent, eventCallCount] <;>
    (try split) <;> (try split) <;> (try split) <;>
    simp_all [LogrLogger.logEvent, LogrLogger.logError]

/-- C2 counterexample: a `Stopped` event without a failure cause does not
produce an informational "started" call (it produces no call at all). -/
theorem stopped_success_not_started :
    ¬ ∃ lv fs, (WithLogr 0).LogEvent (Event.Stopped none) = [SinkCall.info lv "started" fs] := by
  rintro ⟨lv, fs, h⟩
  simp [LogrLogger.LogEvent, WithLogr] at h

/-- C2 (amended): a `Stopped` event without a cause produces no sink call;
a `Stopped` event with a cause produces exactly one error call with message
"stop failed" and no fields. -/
theorem stopped_dispatch (l : LogrLogger) :
    l.LogEvent (.Stopped none) = [] ∧
    ∀ err : GoError, l.LogEvent (.Stopped (some err)) =
      [SinkCall.error l.errorLevel (some err) "stop failed" []] :=
  ⟨rfl, fun _ => rfl⟩

/-- The call shape of a provided/replaced/decorated event with `n` output
types and cause `err`: the first `n` calls are informational (one per output
type) and what follows them is a single error call exactly when a cause is
present — so the failure call, when it exists, comes after all `n`. -/
def groupShape (calls : List SinkCall) (n : Nat) (err : Option GoError) : Prop :=
  (calls.take n).length = n ∧
  ((calls.take n).all fun c => !c.isError) = true ∧
  (calls.drop n).length = (if err.isSome then 1 else 0) ∧
  ((calls.drop n).all fun c => c.isError) = true

theorem groupShape_append (outs : List String) (f : String → SinkCall)
    (hf : ∀ t, (f t).isError = false) (tail : List SinkCall) (err : Option GoError)
    (hlen : tail.length = if err.isSome then 1 else 0)
    (htail : (tail.all fun c => c.isError) = true) :
    groupShape (outs.map f ++ tail) outs.length err := by
  have hm : (outs.map f).length = outs.length := List.length_map outs f
  refine ⟨?_, ?_, ?_, ?_⟩
  · rw [← hm, List.take_left, hm]
  · rw [← hm, List.take_left]
    simp only [List.all_eq_true]
    intro c hc
    rcases List.mem_map.1 hc with ⟨t, _, rfl⟩
    simp [hf t]
  · rw [← hm, List.drop_left, hlen]
  · rw [← hm, List.drop_left, htail]

/-- C3: for every provided, replaced or decorated event with N output
types, `LogEvent` emits exactly N informational calls, one per entry, then
exactly one additional error call if and only if the event carries a cause,
and that failure call comes after all N per-type calls. -/
theorem group_variant_call_shape (l : LogrLogger) :
    (∀ cn mn outs err priv,
      groupShape (l.LogEvent (.Provided cn mn outs err priv)) outs.length err) ∧
    (∀ mn outs err,
      groupShape (l.LogEvent (.Replaced mn outs err)) outs.length err) ∧
    (∀ dn mn outs err,
      groupShape (l.LogEvent (.Decorated dn mn outs err)) outs.length err) := by
  refine ⟨fun cn mn outs err priv => ?_, fun mn outs err => ?_, fun dn mn outs err => ?_⟩ <;>
    simp only [LogrLogger.LogEvent] <;>
    split <;>
    refine groupShape_append _ _ (fun t => by first | rfl | (split <;> rfl)) _ err ?_ ?_ <;>
    cases err <;>
    simp [LogrLogger.logError, SinkCall.isError]

/-- C4: every sink call made by `LogEvent` is made at `errorLevel` exactly
when it is a call to the sink's error operation (the operation that carries
the failure cause), and at `logLevel` otherwise — for every event and every
configured pair of levels. -/
theorem severity_level_selection (l : LogrLogger) (e : Event) :
    ((l.LogEvent e).all (levelOk l)) = true := by
  cases e <;>
    simp only [LogrLogger.LogEvent] <;>
    (try split) <;> (try split) <;> (try split) <;>
    simp_all [List.all_append, List.all_eq_true, apply_ite (levelOk l)]

/-- Every call in the list carries the "module" key exactly when the module
name is non-empty (absent module names leave no placeholder field). -/
def moduleKeyOk (calls : List SinkCall) (mn : String) : Bool :=
  calls.all fun c => hasKey c.fields "module" == (mn.length != 0)

/-- The "private" key is present on exactly the informational (per-type)
calls when the event is marked private, never on failure calls, and only
ever with the literal value `true` (never a `false` placeholder). -/
def privateKeyOk (calls : List SinkCall) (priv : Bool) : Bool :=
  calls.all fun c =>
    (if c.isError then !(hasKey c.fields "private") else hasKey c.fields "private" == priv) &&
    (c.fields.all fun kv => kv.1 != "private" || kv.2.isTrue)

@[simp]
theorem hasKey_nil (k : String) : hasKey [] k = false := rfl

@[simp]
theorem hasKey_cons (k t : String) (v : FieldValue) (fs : List (String × FieldValue)) :
    hasKey ((t, v) :: fs) k = ((t == k) || hasKey fs k) := rfl

/-- C5: for every module-scoped variant (supplied, provided, replaced,
decorated, invoking, invoked), each emitted call's field list contains a
"module" key if and only if the event's module name is non-empty, and for
provided events each per-type informational call contains a "private" key
if and only if the event is marked private; absent optional fields are
omitted entirely — the "private" key never appears with value `false`. -/
theorem optional_field_presence (l : LogrLogger) :
    (∀ tn mn err, moduleKeyOk (l.LogEvent (.Supplied tn mn err)) mn = true) ∧
    (∀ cn mn outs err priv,
      moduleKeyOk (l.LogEvent (.Provided cn mn outs err priv)) mn = true ∧
      privateKeyOk (l.LogEvent (.Provided cn mn outs err priv)) priv = true) ∧
    (∀ mn outs err, moduleKeyOk (l.LogEvent (.Replaced mn outs err)) mn = true) ∧
    (∀ dn mn outs err, moduleKeyOk (l.LogEvent (.Decorated dn mn outs err)) mn = true) ∧
    (∀ fn mn, moduleKeyOk (l.LogEvent (.Invoking fn mn)) mn = true) ∧
    (∀ fn mn tr err, moduleKeyOk (l.LogEvent (.Invoked fn mn tr err)) mn = true) := by
  refine ⟨fun tn mn err => ?_, fun cn mn outs err priv => ⟨?_, ?_⟩,
    fun mn outs err => ?_, fun dn mn outs err => ?_, fun fn mn => ?_,
    fun fn mn tr err => ?_⟩
  · simp only [LogrLogger.LogEvent]
    split <;> cases err <;>
      simp_all [moduleKeyOk, LogrLogger.logEvent, LogrLogger.logError, SinkCall.fields]
  · simp only [LogrLogger.LogEvent]
    split <;> cases err <;> cases priv <;>
      simp_all [moduleKeyOk, LogrLogger.logEvent, LogrLogger.logError, SinkCall.fields,
        List.all_eq_true, Function.comp]
  · simp only [LogrLogger.LogEvent]
    split <;> cases err <;> cases priv <;>
      · simp only [privateKeyOk, List.all_append, Bool.and_eq_true]
        refine ⟨List.all_eq_true.2 fun c hc => ?_, List.all_eq_true.2 fun c hc => ?_⟩
        · rcases List.mem_map.1 hc with ⟨t, ht, rfl⟩
          simp [LogrLogger.logEvent, SinkCall.fields, SinkCall.isError, FieldValue.isTrue]
        · simp_all [LogrLogger.logError, SinkCall.fields, SinkCall.isError, FieldValue.isTrue]
  · simp only [LogrLogger.LogEvent]
    split <;> cases err <;>
      simp_all [moduleKeyOk, LogrLogger.logEvent, LogrLogger.logError, SinkCall.fields,
        List.all_eq_true, Function.comp]
  · simp only [LogrLogger.LogEvent]
    split <;> cases err <;>
      simp_all [moduleKeyOk, LogrLogger.logEvent, LogrLogger.logError, SinkCall.fields,
        List.all_eq_true, Function.comp]
  · simp only [LogrLogger.LogEvent]
    split <;>
      simp_all [moduleKeyOk, LogrLogger.logEvent, SinkCall.fields]
  · simp only [LogrLogger.LogEvent]
    split <;> cases err <;>
      simp_all [moduleKeyOk, LogrLogger.logEvent, LogrLogger.logError, SinkCall.fields]

/-- C6: a hook-start-executed event without a cause yields one informational
call with message "OnStart hook executed" and fields callee, caller, runtime
(the duration rendered by the Go duration formatter) in that order; with a
cause it yields one error call with message "OnStart hook failed" and fields
callee, caller only.  The claim's example rendering holds: 3 milliseconds
(3000000 ns) renders as "3ms". -/
theorem onStartExecuted_dispatch (l : LogrLogger) :
    (∀ fn cn rt, l.LogEvent (.OnStartExecuted fn cn rt none) =
      [SinkCall.info l.logLevel "OnStart hook executed"
        [("callee", .str fn), ("caller", .str cn), ("runtime", .str (durationString rt))]]) ∧
    (∀ fn cn rt err, l.LogEvent (.OnStartExecuted fn cn rt (some err)) =
      [SinkCall.error l.errorLevel (some err) "OnStart hook failed"
        [("callee", .str fn), ("caller", .str cn)]]) ∧
    durationString 3000000 = "3ms" :=
  ⟨fun _ _ _ => rfl, fun _ _ _ _ => rfl, by decide⟩

/-- C7: a stopping event yields exactly one informational call with message
"received signal" and a single field "signal" holding the uppercased
rendering of the event's signal; the claim's example holds: "interrupt"
uppercases to "INTERRUPT". -/
theorem stopping_dispatch (l : LogrLogger) :
    (∀ sig, l.LogEvent (.Stopping sig) =
      [SinkCall.info l.logLevel "received signal"
        [("signal", .str (stringsToUpper sig))]]) ∧
    stringsToUpper "interrupt" = "INTERRUPT" :=
  ⟨fun _ => rfl, by decide⟩

/-- C8: a rolling-back event always yields exactly one call at the error
severity with message "start failed, rolling back", forwarding the event's
start-time error as the cause — including when that error is nil (`none`);
the event carries no other field. -/
theorem rollingBack_dispatch (l : LogrLogger) (startErr : Option GoError) :
    l.LogEvent (.RollingBack startErr) =
      [SinkCall.error l.errorLevel startErr "start failed, rolling back" []] :=
  rfl

/-- C9: `LogEvent` mutates no field of the logger — the state-passing form
returns the receiver unchanged (same sink reference and both levels) while
emitting exactly the dispatched calls — and `UseLogLevel` / `UseErrorLevel`
each set exactly their own level field, leaving the other level and the
sink reference unchanged. -/
theorem logger_state_frame (l : LogrLogger) (e : Event) (v : Int) :
    (l.LogEventS e).1 = l ∧
    (l.LogEventS e).2 = l.LogEvent e ∧
    l.UseLogLevel v = { Logger := l.Logger, logLevel := v, errorLevel := l.errorLevel } ∧
    l.UseErrorLevel v = { Logger := l.Logger, logLevel := l.logLevel, errorLevel := v } :=
  ⟨rfl, rfl, rfl, rfl⟩

/-- Whether an event is the hook-start-executing variant. -/
def Event.isOnStartExecuting : Event → Bool
  | .OnStartExecuting _ _ => true
  | _ => false

/-- C10: the minimal unexported `logger` agrees with the full `LogrLogger`
at its factory defaults (`WithLogr`, both levels 0) on hook-start-executing
events — both emit the single informational call "OnStart hook executing"
with fields callee, caller at verbosity 0 — and on every other variant the
minimal implementation emits no sink call at all. -/
theorem minimal_logger_refinement (sink : Nat) (e : Event) :
    (logger.mk sink).LogEvent e =
      (if e.isOnStartExecuting then (WithLogr sink).LogEvent e else []) ∧
    ∀ fn cn, (logger.mk sink).LogEvent (.OnStartExecuting fn cn) =
      [SinkCall.info 0 "OnStart hook executing"
        [("callee", .str fn), ("caller", .str cn)]] := by
  refine ⟨?_, fun fn cn => rfl⟩
  cases e <;> rfl
